import Mathlib

/-!
# Verification of the anglecraft camera-distribution and render-batch core

Shallow embedding of `src/anglecraft/operators.py`.  Numeric inputs that the
Python code manipulates as ints/floats are modelled as `ℕ`/`ℚ`/`ℝ`; Python
operations that can raise (`/` by zero, `math.asin`/`math.acos` outside
`[-1, 1]`, `math.sqrt` of a negative) are modelled as `Option`-valued,
with `none` standing for a raised exception.  All intermediate angle
*arguments* in the source are rational functions of the integer loop
indices, so domain tests are carried out exactly on `ℚ`; only the final
point coordinates (through `sin`, `cos`, `arcsin`, `arccos`, `sqrt`, `π`)
live in `ℝ`.
-/

namespace Anglecraft

/-- A 3-D point, as produced by the Python tuples `(x, y, z)`. -/
abbrev Point := ℝ × ℝ × ℝ

/-- Python float division on the rational arguments appearing in the source:
raises `ZeroDivisionError` (here `none`) when the denominator is zero. -/
def pydivQ (a b : ℚ) : Option ℚ :=
  if b = 0 then none else some (a / b)

/-- Python `math.asin`: raises `ValueError` (here `none`) outside `[-1, 1]`. -/
noncomputable def pyasinQ (x : ℚ) : Option ℝ :=
  if -1 ≤ x ∧ x ≤ 1 then some (Real.arcsin (x : ℝ)) else none

/-- Python `math.acos`: raises `ValueError` (here `none`) outside `[-1, 1]`. -/
noncomputable def pyacosQ (x : ℚ) : Option ℝ :=
  if -1 ≤ x ∧ x ≤ 1 then some (Real.arccos (x : ℝ)) else none

/-- Python `math.sqrt`: raises `ValueError` (here `none`) on negatives. -/
noncomputable def pysqrtQ (x : ℚ) : Option ℝ :=
  if 0 ≤ x then some (Real.sqrt (x : ℝ)) else none

/-- Sequence a list of fallible computations in order, propagating the first
failure — the behaviour of a Python `for` loop whose body may raise. -/
def collect {α : Type} : List (Option α) → Option (List α)
  | [] => some []
  | none :: _ => none
  | some a :: rest => (collect rest).map (fun l => a :: l)

theorem collect_length {α : Type} :
    ∀ {l : List (Option α)} {m : List α}, collect l = some m → m.length = l.length := by
  intro l
  induction l with
  | nil => intro m h; simp [collect] at h; simp [← h]
  | cons x rest ih =>
    intro m h
    cases x with
    | none => simp [collect] at h
    | some a =>
      simp only [collect, Option.map_eq_some'] at h
      obtain ⟨m', hm', rfl⟩ := h
      simp [ih hm']

theorem collect_isSome {α : Type} :
    ∀ {l : List (Option α)}, (∀ x ∈ l, x.isSome) → ∃ m, collect l = some m := by
  intro l
  induction l with
  | nil => intro _; exact ⟨[], rfl⟩
  | cons x rest ih =>
    intro h
    have hx : x.isSome := h x (List.mem_cons_self x rest)
    obtain ⟨a, rfl⟩ := Option.isSome_iff_exists.mp hx
    obtain ⟨m, hm⟩ := ih (fun y hy => h y (List.mem_cons_of_mem _ hy))
    exact ⟨a :: m, by simp [collect, hm]⟩

theorem collect_eq_none {α : Type} :
    ∀ {l : List (Option α)}, none ∈ l → collect l = none := by
  intro l
  induction l with
  | nil => intro h; simp at h
  | cons x rest ih =>
    intro h
    cases x with
    | none => rfl
    | some a =>
      have : none ∈ rest := by
        rcases List.mem_cons.mp h with h' | h'
        · exact absurd h' (by simp)
        · exact h'
      simp [collect, ih this]

/-- The point appended by every strategy's inner loop:
`(r·sin θ·cos φ, r·sin θ·sin φ, r·cos θ)`. -/
noncomputable def sphPoint (radius θ φ : ℝ) : Point :=
  (radius * Real.sin θ * Real.cos φ,
   radius * Real.sin θ * Real.sin φ,
   radius * Real.cos θ)

/-- The common double-loop shape of `generate_sphere_points`, `linear`,
`uniform` and `equator_dense`: an outer loop over `V` vertical indices whose
angle computation may raise, and an inner loop over `H` horizontal indices. -/
noncomputable def gridPoints (H V : ℕ) (radius : ℝ) (θ : ℕ → Option ℝ) (φ : ℕ → ℝ) :
    Option (List Point) :=
  (collect ((List.range V).map θ)).map
    (fun ts => ts.flatMap (fun t => (List.range H).map (fun h => sphPoint radius t (φ h))))

theorem rings_length {H : ℕ} {radius : ℝ} {φ : ℕ → ℝ} :
    ∀ ts : List ℝ,
      (ts.flatMap (fun t => (List.range H).map (fun h => sphPoint radius t (φ h)))).length
        = ts.length * H
  | [] => by simp
  | t :: ts => by
      simp [rings_length ts, Nat.succ_mul, Nat.add_comm]

theorem gridPoints_length {H V : ℕ} {radius : ℝ} {θ : ℕ → Option ℝ} {φ : ℕ → ℝ}
    (hθ : ∀ v < V, (θ v).isSome) :
    (gridPoints H V radius θ φ).map List.length = some (V * H) := by
  obtain ⟨m, hm⟩ := collect_isSome (l := (List.range V).map θ) (by
    intro x hx
    obtain ⟨v, hv, rfl⟩ := List.mem_map.mp hx
    exact hθ v (List.mem_range.mp hv))
  have hlen : m.length = V := by
    have := collect_length hm
    simpa using this
  simp only [gridPoints, hm, Option.map_some']
  rw [rings_length m, hlen]

theorem gridPoints_none {H V : ℕ} {radius : ℝ} {θ : ℕ → Option ℝ} {φ : ℕ → ℝ}
    {v : ℕ} (hv : v < V) (hnone : θ v = none) :
    gridPoints H V radius θ φ = none := by
  have : none ∈ (List.range V).map θ := by
    refine List.mem_map.mpr ⟨v, List.mem_range.mpr hv, hnone⟩
  simp [gridPoints, collect_eq_none this]

/-! ## The five distribution strategies (operators.py lines 8–197) -/

/-- Hemisphere selector of `generate_sphere_points` (the Python strings
`'top'` / `'bottom'`; `None` is the `Option.none` case). -/
inductive Hemisphere where
  | top
  | bottom
deriving DecidableEq

/-- Vertical angle of `generate_sphere_points` (lines 29–34).  All three
branches divide by `num_vertical - 1`, raising when it is zero. -/
noncomputable def gspTheta (V : ℕ) (hemi : Option Hemisphere) (i : ℕ) : Option ℝ :=
  match hemi with
  | some .top => (pydivQ (i : ℚ) ((V : ℚ) - 1)).map (fun q => (Real.pi / 2) * (q : ℝ))
  | some .bottom =>
      (pydivQ (i : ℚ) ((V : ℚ) - 1)).map (fun q => (Real.pi / 2) * (q : ℝ) + Real.pi / 2)
  | none => (pydivQ (i : ℚ) ((V : ℚ) - 1)).map (fun q => Real.pi * (q : ℝ))

/-- `generate_sphere_points` (lines 8–43): guard `num_horizontal <= 0 or
num_vertical <= 0` returns `[]`, then the double loop. -/
noncomputable def generate_sphere_points (H V : ℕ) (radius : ℝ) (hemi : Option Hemisphere) :
    Option (List Point) :=
  if H = 0 ∨ V = 0 then some []
  else gridPoints H V radius (gspTheta V hemi) (fun j => 2 * Real.pi * (j : ℝ) / (H : ℝ))

/-- Vertical angle of `linear_distribution` (lines 126–129). -/
noncomputable def linearTheta (V : ℕ) (half_sphere : Bool) (v : ℕ) : Option ℝ :=
  if half_sphere then
    (pydivQ (v : ℚ) ((V : ℚ) - 1)).map (fun q => (Real.pi / 2) * (q : ℝ))
  else
    some (Real.pi * ((v : ℝ) + 1) / ((V : ℝ) + 1))

/-- `linear_distribution` (lines 111–137). -/
noncomputable def linear_distribution (H V : ℕ) (radius : ℝ) (half_sphere : Bool) :
    Option (List Point) :=
  gridPoints H V radius (linearTheta V half_sphere)
    (fun h => (2 * Real.pi / (H : ℝ)) * (h : ℝ))

/-- Vertical angle of `uniform_distribution` (lines 155–158). -/
noncomputable def uniformTheta (V : ℕ) (half_sphere : Bool) (v : ℕ) : Option ℝ :=
  if half_sphere then
    (pydivQ (2 * (v : ℚ)) ((V : ℚ) - 1)).bind (fun q => (pyacosQ (1 - q)).map (fun a => a / 2))
  else
    pyacosQ (1 - 2 * ((v : ℚ) + 1) / ((V : ℚ) + 1))

/-- `uniform_distribution` (lines 140–166). -/
noncomputable def uniform_distribution (H V : ℕ) (radius : ℝ) (half_sphere : Bool) :
    Option (List Point) :=
  gridPoints H V radius (uniformTheta V half_sphere)
    (fun h => (2 * Real.pi / (H : ℝ)) * (h : ℝ))

/-- Vertical angle of `equator_dense_distribution` (lines 185–189):
`t = (v + 0.5) / V`, then an arcsine remapping. -/
noncomputable def equatorTheta (V : ℕ) (half_sphere : Bool) (v : ℕ) : Option ℝ :=
  if half_sphere then
    (pyasinQ (((v : ℚ) + 1/2) / (V : ℚ))).map (fun a => a * (Real.pi / 2))
  else
    (pyasinQ (2 * (((v : ℚ) + 1/2) / (V : ℚ)) - 1)).map (fun a => a + Real.pi / 2)

/-- `equator_dense_distribution` (lines 169–197). -/
noncomputable def equator_dense_distribution (H V : ℕ) (radius : ℝ) (half_sphere : Bool) :
    Option (List Point) :=
  gridPoints H V radius (equatorTheta V half_sphere)
    (fun h => (2 * Real.pi / (H : ℝ)) * (h : ℝ))

/-- The golden angle `math.pi * (3. - math.sqrt(5.))` (line 93). -/
noncomputable def goldenAngle : ℝ := Real.pi * (3 - Real.sqrt 5)

/-- One iteration of the `fibonacci_sphere` loop (lines 95–106):
`z = 1 - (i/(samples-1))*2` (raising when `samples - 1 == 0`), the
half-sphere `continue` test (`some none` models a skipped index), then
`radius_z = sqrt(1 - z*z)` and the appended point. -/
noncomputable def fibStep (samples : ℕ) (radius : ℝ) (half_sphere : Bool) (i : ℕ) :
    Option (Option Point) :=
  (pydivQ (i : ℚ) ((samples : ℚ) - 1)).bind (fun zr =>
    let z : ℚ := 1 - zr * 2
    if half_sphere ∧ z < 0 then some none
    else (pysqrtQ (1 - z * z)).map (fun rz =>
      some ((Real.cos (goldenAngle * (i : ℝ)) * rz) * radius,
            (Real.sin (goldenAngle * (i : ℝ)) * rz) * radius,
            (z : ℝ) * radius)))

/-- `fibonacci_sphere` (lines 80–108).  The final `filterMap id` drops the
indices skipped by the half-sphere `continue`. -/
noncomputable def fibonacci_sphere (samples : ℕ) (radius : ℝ) (half_sphere : Bool) :
    Option (List Point) :=
  (collect ((List.range samples).map (fibStep samples radius half_sphere))).map
    (List.filterMap id)

/-- Python `int(q)` on the rationals appearing in `weighted_distribution`:
truncation toward zero (floor for nonnegative values, ceiling otherwise). -/
def ratTrunc (q : ℚ) : ℤ :=
  if 0 ≤ q then ⌊q⌋ else ⌈q⌉

/-- `int(math.ceil(math.sqrt(n)))` for a natural `n`: `⌈√n⌉` is the least `k`
with `n ≤ k * k`, found here by bounded search (`k = n` always works). -/
def ceilSqrt (n : ℕ) : ℕ :=
  ((List.range (n + 1)).find? (fun k => n ≤ k * k)).getD n

/-- `weighted_distribution` (lines 45–77).  `math.sqrt` of a negative count and
`ceil(n / 0)` raise (`none`); otherwise the two hemisphere grids are generated
and truncated to their exact allotted counts. -/
noncomputable def weighted_distribution (num_cameras_total : ℕ) (bias_ratio : ℚ) :
    Option (List Point) :=
  let top : ℤ := ratTrunc ((num_cameras_total : ℚ) * bias_ratio)
  let bottom : ℤ := (num_cameras_total : ℤ) - top
  (if top < 0 then none else some (ceilSqrt top.toNat)).bind (fun nht =>
  (if nht = 0 then none else some ((top.toNat + nht - 1) / nht)).bind (fun nvt =>
  (if bottom < 0 then none else some (ceilSqrt bottom.toNat)).bind (fun nhb =>
  (if nhb = 0 then none else some ((bottom.toNat + nhb - 1) / nhb)).bind (fun nvb =>
  (generate_sphere_points nht nvt 1 (some .top)).bind (fun topPts =>
  (generate_sphere_points nhb nvb 1 (some .bottom)).map (fun botPts =>
    topPts.take top.toNat ++ botPts.take bottom.toNat))))))

/-! ## Totality and failure facts for the vertical-angle computations -/

theorem cast_le_sub_one {v V : ℕ} (hv : v < V) : (v : ℚ) ≤ (V : ℚ) - 1 := by
  have h : (v : ℚ) + 1 ≤ (V : ℚ) := by
    exact_mod_cast Nat.succ_le_of_lt hv
  linarith

theorem cast_sub_one_pos {V : ℕ} (h2 : 2 ≤ V) : 0 < (V : ℚ) - 1 := by
  have h : (2 : ℚ) ≤ (V : ℚ) := by exact_mod_cast h2
  linarith

theorem cast_sub_one_ne_zero {V : ℕ} (hV : V ≠ 1) : (V : ℚ) - 1 ≠ 0 := by
  have : (V : ℚ) ≠ 1 := by exact_mod_cast hV
  exact sub_ne_zero.mpr this

theorem linearTheta_isSome {V : ℕ} {half_sphere : Bool}
    (h : ¬(half_sphere = true ∧ V = 1)) : ∀ v < V, (linearTheta V half_sphere v).isSome := by
  intro v hv
  cases half_sphere with
  | false => simp [linearTheta]
  | true =>
    have hV : V ≠ 1 := fun h1 => h ⟨rfl, h1⟩
    simp [linearTheta, pydivQ, cast_sub_one_ne_zero hV]

theorem linearTheta_none {V : ℕ} (hV : V = 1) (v : ℕ) : linearTheta V true v = none := by
  subst hV
  simp [linearTheta, pydivQ]

theorem uniformTheta_isSome {V : ℕ} {half_sphere : Bool}
    (h : ¬(half_sphere = true ∧ V = 1)) : ∀ v < V, (uniformTheta V half_sphere v).isSome := by
  intro v hv
  have hv1 : (v : ℚ) + 1 ≤ (V : ℚ) := by exact_mod_cast Nat.succ_le_of_lt hv
  have hV0 : (0 : ℚ) ≤ (V : ℚ) := by positivity
  cases half_sphere with
  | false =>
    have hpos : (0 : ℚ) < (V : ℚ) + 1 := by linarith
    have h1 : 2 * ((v : ℚ) + 1) / ((V : ℚ) + 1) ≤ 2 := by
      rw [div_le_iff₀ hpos]
      linarith
    have h2 : 0 ≤ 2 * ((v : ℚ) + 1) / ((V : ℚ) + 1) := by positivity
    simp only [uniformTheta, Bool.false_eq_true, if_false, pyacosQ]
    rw [if_pos (by constructor <;> linarith)]
    simp
  | true =>
    have hV : V ≠ 1 := fun h1 => h ⟨rfl, h1⟩
    have hV2 : 2 ≤ V := by
      rcases Nat.lt_or_ge V 2 with h' | h'
      · interval_cases V
        · exact absurd hv (Nat.not_lt_zero v)
        · exact absurd rfl hV
      · exact h'
    have hpos : (0 : ℚ) < (V : ℚ) - 1 := cast_sub_one_pos hV2
    have hle : (v : ℚ) ≤ (V : ℚ) - 1 := cast_le_sub_one hv
    have h1 : 2 * (v : ℚ) / ((V : ℚ) - 1) ≤ 2 := by
      rw [div_le_iff₀ hpos]
      linarith
    have h2 : 0 ≤ 2 * (v : ℚ) / ((V : ℚ) - 1) := by positivity
    simp only [uniformTheta, if_true, pydivQ, ne_eq]
    rw [if_neg (ne_of_gt hpos), Option.some_bind, pyacosQ,
      if_pos (by constructor <;> linarith)]
    simp

theorem uniformTheta_none {V : ℕ} (hV : V = 1) (v : ℕ) : uniformTheta V true v = none := by
  subst hV
  simp [uniformTheta, pydivQ]

theorem equatorTheta_isSome {V : ℕ} {half_sphere : Bool} :
    ∀ v < V, (equatorTheta V half_sphere v).isSome := by
  intro v hv
  have hVpos : 0 < V := lt_of_le_of_lt (Nat.zero_le v) hv
  have hV : (0 : ℚ) < (V : ℚ) := by exact_mod_cast hVpos
  have hv1 : (v : ℚ) + 1 ≤ (V : ℚ) := by exact_mod_cast Nat.succ_le_of_lt hv
  have ht0 : 0 ≤ ((v : ℚ) + 1/2) / (V : ℚ) := by positivity
  have ht1 : ((v : ℚ) + 1/2) / (V : ℚ) ≤ 1 := by
    rw [div_le_one hV]
    linarith
  cases half_sphere with
  | false =>
    simp only [equatorTheta, Bool.false_eq_true, if_false, pyasinQ]
    rw [if_pos (by constructor <;> linarith)]
    simp
  | true =>
    simp only [equatorTheta, if_true, pyasinQ]
    rw [if_pos (by constructor <;> linarith)]
    simp

theorem fibonacci_sphere_le {samples : ℕ} (radius : ℝ) (half_sphere : Bool)
    (h2 : 2 ≤ samples) :
    ∃ l, fibonacci_sphere samples radius half_sphere = some l ∧ l.length ≤ samples := by
  have hs1 : samples ≠ 1 := by omega
  have hden : ((samples : ℚ) - 1) ≠ 0 := cast_sub_one_ne_zero hs1
  have hpos : (0 : ℚ) < (samples : ℚ) - 1 :=
    cast_sub_one_pos h2
  obtain ⟨m, hm⟩ := collect_isSome
    (l := (List.range samples).map (fibStep samples radius half_sphere)) (by
      intro x hx
      obtain ⟨i, hi, rfl⟩ := List.mem_map.mp hx
      have hi' : i < samples := List.mem_range.mp hi
      have hzr0 : 0 ≤ (i : ℚ) / ((samples : ℚ) - 1) := by positivity
      have hzr1 : (i : ℚ) / ((samples : ℚ) - 1) ≤ 1 := by
        rw [div_le_one hpos]
        exact cast_le_sub_one hi'
      simp only [fibStep, pydivQ, if_neg hden, Option.some_bind]
      set zr : ℚ := (i : ℚ) / ((samples : ℚ) - 1) with hzr
      by_cases hskip : half_sphere ∧ 1 - zr * 2 < 0
      · rw [if_pos hskip]
        simp
      · rw [if_neg hskip]
        have hz : 0 ≤ 1 - (1 - zr * 2) * (1 - zr * 2) := by nlinarith
        simp only [pysqrtQ, if_pos hz]
        simp)
  refine ⟨m.filterMap id, ?_, ?_⟩
  · simp only [fibonacci_sphere, hm, Option.map_some']
  · calc (m.filterMap id).length ≤ m.length := List.length_filterMap_le _ _
      _ = samples := by simpa using collect_length hm

theorem fibonacci_sphere_one (radius : ℝ) (half_sphere : Bool) :
    fibonacci_sphere 1 radius half_sphere = none := by
  simp [fibonacci_sphere, fibStep, pydivQ, collect, List.range_succ]

theorem fibonacci_sphere_zero (radius : ℝ) (half_sphere : Bool) :
    fibonacci_sphere 0 radius half_sphere = some [] := by
  simp [fibonacci_sphere, collect]

theorem linear_distribution_length {H V : ℕ} (radius : ℝ) (half_sphere : Bool)
    (h : ¬(half_sphere = true ∧ V = 1)) :
    (linear_distribution H V radius half_sphere).map List.length = some (V * H) :=
  gridPoints_length (linearTheta_isSome h)

theorem linear_distribution_raises {H : ℕ} (radius : ℝ) :
    linear_distribution H 1 radius true = none :=
  gridPoints_none (v := 0) Nat.one_pos (linearTheta_none rfl 0)

theorem uniform_distribution_length {H V : ℕ} (radius : ℝ) (half_sphere : Bool)
    (h : ¬(half_sphere = true ∧ V = 1)) :
    (uniform_distribution H V radius half_sphere).map List.length = some (V * H) :=
  gridPoints_length (uniformTheta_isSome h)

theorem uniform_distribution_raises {H : ℕ} (radius : ℝ) :
    uniform_distribution H 1 radius true = none :=
  gridPoints_none (v := 0) Nat.one_pos (uniformTheta_none rfl 0)

theorem equator_dense_distribution_length {H V : ℕ} (radius : ℝ) (half_sphere : Bool) :
    (equator_dense_distribution H V radius half_sphere).map List.length = some (V * H) :=
  gridPoints_length equatorTheta_isSome

theorem map_length_zero_eq_some_nil {o : Option (List Point)}
    (h : o.map List.length = some 0) : o = some [] := by
  cases o with
  | none => simp at h
  | some l =>
    simp only [Option.map_some', Option.some.injEq] at h
    rw [List.length_eq_zero] at h
    rw [h]

/-! ## Claims C1 and C2: point counts and zero/degenerate inputs -/

/-- C1 (counterexample): the claim "for every H ≥ 1, V ≥ 1 and either
half-sphere flag, `linear_distribution` returns exactly H×V points" fails at
H = 1, V = 1, half_sphere = true: the code divides by `V - 1 = 0` and raises
`ZeroDivisionError` instead of returning one point. -/
theorem C1_cex_linear_raises :
    linear_distribution 1 1 (1 : ℝ) true = none
      ∧ (linear_distribution 1 1 (1 : ℝ) true).map List.length ≠ some (1 * 1) := by
  have h : linear_distribution 1 1 (1 : ℝ) true = none := linear_distribution_raises (1 : ℝ)
  exact ⟨h, by simp [h]⟩

/-- C1 (amended): for H ≥ 1, V ≥ 1 and either half-sphere flag,
`equator_dense` returns exactly H×V points; `linear` and `uniform` return
exactly H×V points unless half_sphere is set and V = 1, in which case both
raise a division error; `fibonacci` with samples = H×V returns at most H×V
points unless H×V = 1, in which case it raises a division error. -/
theorem C1_amended_counts (H V : ℕ) (radius : ℝ) (half_sphere : Bool)
    (_hH : 1 ≤ H) (_hV : 1 ≤ V) :
    ((equator_dense_distribution H V radius half_sphere).map List.length = some (V * H))
    ∧ (¬(half_sphere = true ∧ V = 1) →
        (linear_distribution H V radius half_sphere).map List.length = some (V * H)
        ∧ (uniform_distribution H V radius half_sphere).map List.length = some (V * H))
    ∧ (half_sphere = true → V = 1 →
        linear_distribution H V radius half_sphere = none
        ∧ uniform_distribution H V radius half_sphere = none)
    ∧ (2 ≤ H * V →
        ∃ l, fibonacci_sphere (H * V) radius half_sphere = some l ∧ l.length ≤ H * V)
    ∧ (H * V = 1 → fibonacci_sphere (H * V) radius half_sphere = none) := by
  refine ⟨equator_dense_distribution_length radius half_sphere, ?_, ?_, ?_, ?_⟩
  · intro h
    exact ⟨linear_distribution_length radius half_sphere h,
      uniform_distribution_length radius half_sphere h⟩
  · intro hhs hV1
    subst hhs hV1
    exact ⟨linear_distribution_raises radius, uniform_distribution_raises radius⟩
  · intro h2
    exact fibonacci_sphere_le radius half_sphere h2
  · intro h1
    rw [h1]
    exact fibonacci_sphere_one radius half_sphere

/-- Witness for `C1_amended_counts` at H = 2, V = 3, radius 1, full sphere. -/
theorem C1_amended_counts_witness :
    ((equator_dense_distribution 2 3 (1 : ℝ) false).map List.length = some (3 * 2))
    ∧ (¬(false = true ∧ 3 = 1) →
        (linear_distribution 2 3 (1 : ℝ) false).map List.length = some (3 * 2)
        ∧ (uniform_distribution 2 3 (1 : ℝ) false).map List.length = some (3 * 2))
    ∧ (false = true → 3 = 1 →
        linear_distribution 2 3 (1 : ℝ) false = none
        ∧ uniform_distribution 2 3 (1 : ℝ) false = none)
    ∧ (2 ≤ 2 * 3 →
        ∃ l, fibonacci_sphere (2 * 3) (1 : ℝ) false = some l ∧ l.length ≤ 2 * 3)
    ∧ (2 * 3 = 1 → fibonacci_sphere (2 * 3) (1 : ℝ) false = none) :=
  C1_amended_counts 2 3 (1 : ℝ) false (by decide) (by decide)

/-- C2 (counterexample): the claim "with H = 0 or V = 0 every distribution
returns an empty sequence and never raises" fails for `linear_distribution`
at H = 0, V = 1, half_sphere = true: the vertical angle `v / (V - 1)` is
computed before the (empty) horizontal loop and raises `ZeroDivisionError`. -/
theorem C2_cex_linear_raises_at_H0 :
    linear_distribution 0 1 (1 : ℝ) true = none
      ∧ linear_distribution 0 1 (1 : ℝ) true ≠ some [] := by
  have h : linear_distribution 0 1 (1 : ℝ) true = none := linear_distribution_raises (1 : ℝ)
  exact ⟨h, by simp [h]⟩

/-- `weighted_distribution` with a total of 0 raises for every bias ratio:
`top_cameras = int(0 * ratio) = 0`, `num_horizontal_top = ceil(sqrt(0)) = 0`,
and `num_vertical_top = int(math.ceil(0 / 0))` divides by zero (line 62). -/
theorem weighted_distribution_zero (bias_ratio : ℚ) :
    weighted_distribution 0 bias_ratio = none := by
  have harg : (((0 : ℕ) : ℚ) * bias_ratio) = 0 := by
    push_cast
    ring
  rw [weighted_distribution, harg]
  have h0 : ratTrunc 0 = 0 := by
    rw [ratTrunc]
    norm_num
  simp only [h0, show Int.toNat 0 = 0 from rfl, show ceilSqrt 0 = 0 from (by decide),
    if_neg (show ¬(0 : ℤ) < 0 by norm_num)]
  simp

/-- C2 (amended): with H = 0 or V = 0 the linear, uniform, equator_dense and
fibonacci strategies return an empty sequence, except that with H = 0, V = 1
and half_sphere set, `linear` and `uniform` still evaluate the vertical
angle and raise a division error.  `fibonacci` has no explicit samples ≤ 1
guard: samples = H×V = 0 yields an empty list only because the loop range is
empty, and samples = 1 raises.  The weighted strategy, called with total
H×V = 0, raises a division error at `ceil(0 / 0)` for every bias ratio
instead of returning an empty sequence. -/
theorem C2_amended_zero_counts (H V : ℕ) (radius : ℝ) (half_sphere : Bool)
    (bias_ratio : ℚ) (h0 : H = 0 ∨ V = 0) :
    fibonacci_sphere (H * V) radius half_sphere = some []
    ∧ equator_dense_distribution H V radius half_sphere = some []
    ∧ (¬(half_sphere = true ∧ V = 1) →
        linear_distribution H V radius half_sphere = some []
        ∧ uniform_distribution H V radius half_sphere = some [])
    ∧ (half_sphere = true → V = 1 →
        linear_distribution H V radius half_sphere = none
        ∧ uniform_distribution H V radius half_sphere = none)
    ∧ fibonacci_sphere 1 radius half_sphere = none
    ∧ weighted_distribution (H * V) bias_ratio = none := by
  have hHV : H * V = 0 := by
    rcases h0 with h | h <;> simp [h]
  have hVH0 : ∀ o : Option (List Point), o.map List.length = some (V * H) → o = some [] := by
    intro o ho
    refine map_length_zero_eq_some_nil ?_
    rcases h0 with h | h <;> simp [h] at ho ⊢ <;> exact ho
  refine ⟨?_, ?_, ?_, ?_, fibonacci_sphere_one radius half_sphere, ?_⟩
  · rw [hHV]
    exact fibonacci_sphere_zero radius half_sphere
  · exact hVH0 _ (equator_dense_distribution_length radius half_sphere)
  · intro h
    exact ⟨hVH0 _ (linear_distribution_length radius half_sphere h),
      hVH0 _ (uniform_distribution_length radius half_sphere h)⟩
  · intro hhs hV1
    subst hhs hV1
    exact ⟨linear_distribution_raises radius, uniform_distribution_raises radius⟩
  · rw [hHV]
    exact weighted_distribution_zero bias_ratio

/-- Witness for `C2_amended_zero_counts` at H = 0, V = 2, radius 1,
bias ratio 4/5. -/
theorem C2_amended_zero_counts_witness :
    fibonacci_sphere (0 * 2) (1 : ℝ) false = some []
    ∧ equator_dense_distribution 0 2 (1 : ℝ) false = some []
    ∧ (¬(false = true ∧ 2 = 1) →
        linear_distribution 0 2 (1 : ℝ) false = some []
        ∧ uniform_distribution 0 2 (1 : ℝ) false = some [])
    ∧ (false = true → 2 = 1 →
        linear_distribution 0 2 (1 : ℝ) false = none
        ∧ uniform_distribution 0 2 (1 : ℝ) false = none)
    ∧ fibonacci_sphere 1 (1 : ℝ) false = none
    ∧ weighted_distribution (0 * 2) (4/5) = none :=
  C2_amended_zero_counts 0 2 (1 : ℝ) false (4/5) (Or.inl rfl)

/-! ## Claim C3: the weighted distribution -/

/-- C3 (code bug): the claim "weighted returns exactly N points split
floor(N·ratio) / N − floor(N·ratio); in particular N = 10, bias_ratio = 0.8
gives 8 top + 2 bottom points" is what the code intends, but the code
raises instead: the bottom allotment is 2, giving a ceil(√2) × ceil(2/2) =
2 × 1 grid, and `generate_sphere_points` divides by `num_vertical - 1 = 0`
(`ZeroDivisionError`) despite its own divide-by-zero guard comment. -/
theorem C3_weighted_raises_at_10 : weighted_distribution 10 (4/5) = none := by
  have h8 : ratTrunc (((10 : ℕ) : ℚ) * (4/5)) = 8 := by
    rw [ratTrunc]
    norm_num
  have hcs8 : ceilSqrt 8 = 3 := by decide
  have hcs2 : ceilSqrt 2 = 2 := by decide
  have htop : (generate_sphere_points 3 3 1 (some .top)).map List.length = some 9 := by
    rw [generate_sphere_points, if_neg (by norm_num)]
    exact gridPoints_length (by
      intro v hv
      simp only [gspTheta, pydivQ]
      rw [if_neg (by norm_num)]
      simp)
  obtain ⟨l, hl, _⟩ := Option.map_eq_some'.mp htop
  have hbot : generate_sphere_points 2 1 1 (some .bottom) = none := by
    rw [generate_sphere_points, if_neg (by norm_num)]
    exact gridPoints_none (v := 0) (by norm_num) (by
      simp only [gspTheta, pydivQ]
      rw [if_pos (by norm_num)]
      simp)
  rw [weighted_distribution]
  simp only [h8, show ((10 : ℕ) : ℤ) - 8 = 2 from rfl, show Int.toNat 8 = 8 from rfl,
    show Int.toNat 2 = 2 from rfl, if_neg (show ¬(8 : ℤ) < 0 by norm_num),
    if_neg (show ¬(2 : ℤ) < 0 by norm_num), Option.some_bind]
  simp only [hcs8, hcs2]
  norm_num
  rw [hl]
  simp [hbot]

/-! ## Scene model for the camera lifecycle (operators.py lines 218–414)

Objects of the Blender scene are modelled by name, type, the `location.z`
coordinate (the only coordinate the core reads, for the below-floor test)
and the `hide_render` flag (the only flag it writes).  Coordinates are `ℚ`
(exact model of the floats involved; no trigonometry reaches this layer). -/

inductive ObjType where
  | camera
  | mesh
  | light
deriving DecidableEq

structure SceneObj where
  name : String
  otype : ObjType
  z : ℚ
  hide_render : Bool
deriving DecidableEq

abbrev Scene := List SceneObj

/-- `bpy.data.objects.get(name)`: first object with the given name. -/
def getObj (n : String) (s : Scene) : Option SceneObj :=
  s.find? (fun o => o.name == n)

/-- Assignment `obj.hide_render = b` through a live handle held by name. -/
def setHide (n : String) (b : Bool) (s : Scene) : Scene :=
  s.map (fun o => if o.name == n then { o with hide_render := b } else o)

/-- Read back an object's `hide_render` flag. -/
def getHide (n : String) (s : Scene) : Option Bool :=
  (getObj n s).map (fun o => o.hide_render)

/-- One position of `re.search(r'_ai_\d+', name)` (lines 319 and 409): does
the suffix starting here begin with `_ai_` followed by a digit? -/
def aiMatchAt : List Char → Bool
  | '_' :: 'a' :: 'i' :: '_' :: c :: _ => c.isDigit
  | _ => false

/-- `re.search(r'_ai_\d+', s)` succeeds iff some position of `s` starts with
`_ai_` followed by at least one digit (`\d+` needs only its first digit for
`search` to succeed, anywhere in the string — not anchored to the end). -/
def containsAiDigits (s : String) : Bool :=
  s.data.tails.any aiMatchAt

/-- Modelled from the spec for claim C6: "a camera whose name *ends with*
`_ai_` followed by one or more digits (suffix match)".  Stated for
comparison against the code's `containsAiDigits`. -/
def endsWithAiDigits (s : String) : Bool :=
  let r := s.data.reverse
  !(r.takeWhile Char.isDigit).isEmpty
    && ((r.dropWhile Char.isDigit).take 4 == ['_', 'i', 'a', '_'])

/-- The filter `camera.type == 'CAMERA' and re.search(r'_ai_\d+', camera.name)`
used, in identical duplicated form, by both `render_cameras` (line 319) and
`delete_ai_cameras` (line 409). -/
def managedObj (o : SceneObj) : Bool :=
  (o.otype == ObjType.camera) && containsAiDigits o.name

/-- The comprehension `[camera for camera in bpy.data.objects if ...]` common
to discovery (line 319) and deletion (line 409), in scene order. -/
def managedCameras (s : Scene) : List SceneObj :=
  s.filter managedObj

/-- Little-endian decimal digits of `n`, with an explicit fuel argument
(`n` itself suffices) to keep the recursion structural. -/
def natDigitsRev : ℕ → ℕ → List Char
  | 0, _ => []
  | _ + 1, 0 => []
  | fuel + 1, n + 1 => Nat.digitChar ((n + 1) % 10) :: natDigitsRev fuel ((n + 1) / 10)

/-- Decimal rendering of a natural number, as Python's f-string `{idx}`. -/
def natToString (n : ℕ) : String :=
  if n = 0 then "0" else String.mk (natDigitsRev n n).reverse

/-- The name assigned at line 282: `f"{target_object.name}_ai_{idx}"`. -/
def camName (target : String) (idx : ℕ) : String :=
  target ++ "_ai_" ++ natToString idx

/-- `create_cameras` (lines 218–286), from the point where the distribution
points have been computed (the distribution dispatch itself is the subject
of claims C1–C3; the placement loop only consumes the resulting list, whose
coordinates are irrelevant to the naming-based lifecycle, so points are
taken here as exact rationals).  `random.uniform(min_radius, max_radius)`
is the oracle `radii`.  A missing target raises `ValueError` (`none`);
otherwise one camera per point is linked into the scene, named
`<target>_ai_<idx>` for `idx = 0, 1, ...`, and the created list (here its
length) is returned. -/
def create_cameras (s : Scene) (object_name : String) (points : List (ℚ × ℚ × ℚ))
    (radii : ℕ → ℚ) : Option (Scene × ℕ) :=
  match getObj object_name s with
  | none => none
  | some target =>
      let cams := points.enum.map (fun ip =>
        { name := camName target.name ip.1, otype := ObjType.camera,
          z := target.z + ip.2.2.2 * radii ip.1, hide_render := false : SceneObj })
      some (s ++ cams, cams.length)

/-- Result of `delete_ai_cameras`: the scene after removal, the count shown
in the `print` message, and the Python return value (`None`). -/
structure DeleteResult where
  scene : Scene
  printed : ℕ
  ret : Option ℕ
deriving DecidableEq

/-- `delete_ai_cameras` (lines 402–414): re-discovers managed cameras by the
name pattern, removes each (`do_unlink=True`), prints the count, and falls
off the end of the function — returning `None`, not the count. -/
def delete_ai_cameras (s : Scene) : DeleteResult :=
  let cameras_to_delete := managedCameras s
  { scene := s.filter (fun o => !(managedObj o)),
    printed := cameras_to_delete.length,
    ret := none }

/-- Result of a completed `render_cameras` batch: final scene, number of
images written, the count in the `print` message, and the Python return
value (`None`). -/
structure RenderResult where
  scene : Scene
  written : ℕ
  printed : ℕ
  ret : Option ℕ
deriving DecidableEq

/-- The per-camera render loop (lines 353–392), restricted to the state the
claims concern: the floor-visibility override and the images written.  The
world/HDRi mutation, progress reporting and file naming have no bearing on
any claim and are omitted.  `ok i` is the outcome of the host call
`bpy.ops.render.render(write_still=True)` for camera `i`; a failed render
propagates the host exception (`Except.error` carrying the scene state at
propagation).  Note the source restores `hide_render` only on the success
path — there is no try/finally. -/
def renderLoop (ok : ℕ → Bool) (floorRef : Option (String × ℚ)) :
    List SceneObj → ℕ → ℕ → Scene → Except Scene (Scene × ℕ)
  | [], _, w, s => .ok (s, w)
  | cam :: rest, i, w, s =>
      let s1 := match floorRef with
        | some fr => if cam.z < fr.2 then setHide fr.1 true s else s
        | none => s
      if ok i then
        let s2 := match floorRef with
          | some fr => setHide fr.1 false s1
          | none => s1
        renderLoop ok floorRef rest (i + 1) (w + 1) s2
      else .error s1

/-- `render_cameras` (lines 289–398): discover managed cameras, resolve the
floor object once (`if floor_object_name` — empty string is falsy), run the
per-camera loop, print the count, and fall off the end — returning `None`.
The floor handle is live, but only its (never-written) name and `z` are read
inside the loop, so they are snapshotted in `floorRef`. -/
def render_cameras (s : Scene) (floor_object_name : String) (renderOk : ℕ → Bool) :
    Except Scene RenderResult :=
  match renderLoop renderOk
      (if floor_object_name = "" then none
       else (getObj floor_object_name s).map (fun f => (f.name, f.z)))
      (managedCameras s) 0 0 s with
  | .ok (s', w) =>
      .ok { scene := s', written := w, printed := (managedCameras s).length, ret := none }
  | .error s' => .error s'

/-! ## Lemmas about names, lookup and the render loop -/

theorem digitChar_isDigit {d : ℕ} (hd : d < 10) : (Nat.digitChar d).isDigit = true := by
  interval_cases d <;> decide

theorem natDigitsRev_all_digits :
    ∀ fuel n, ∀ c ∈ natDigitsRev fuel n, c.isDigit = true := by
  intro fuel
  induction fuel with
  | zero => intro n c hc; simp [natDigitsRev] at hc
  | succ f ih =>
    intro n c hc
    cases n with
    | zero => simp [natDigitsRev] at hc
    | succ m =>
      simp only [natDigitsRev, List.mem_cons] at hc
      rcases hc with rfl | hc
      · exact digitChar_isDigit (Nat.mod_lt _ (by norm_num))
      · exact ih _ c hc

theorem natToString_head_digit (n : ℕ) :
    ∃ c cs, (natToString n).data = c :: cs ∧ c.isDigit = true := by
  by_cases h0 : n = 0
  · subst h0
    exact ⟨'0', [], rfl, rfl⟩
  · obtain ⟨m, rfl⟩ := Nat.exists_eq_succ_of_ne_zero h0
    have hne : (natDigitsRev (m + 1) (m + 1)).reverse ≠ [] := by
      simp [natDigitsRev]
    obtain ⟨c, cs, hcc⟩ := List.exists_cons_of_ne_nil hne
    refine ⟨c, cs, ?_, ?_⟩
    · simp [natToString, hcc]
    · have hc : c ∈ natDigitsRev (m + 1) (m + 1) := by
        rw [← List.mem_reverse, hcc]
        exact List.mem_cons_self _ _
      exact natDigitsRev_all_digits _ _ c hc

theorem tails_any_aiMatchAt (pre : List Char) (c : Char) (cs : List Char)
    (hc : c.isDigit = true) :
    (pre ++ '_' :: 'a' :: 'i' :: '_' :: c :: cs).tails.any aiMatchAt = true := by
  induction pre with
  | nil =>
    rw [List.nil_append, List.tails_cons, List.any_cons]
    simp [aiMatchAt, hc]
  | cons x xs ih =>
    rw [List.cons_append, List.tails_cons, List.any_cons, ih, Bool.or_true]

theorem containsAiDigits_camName (t : String) (i : ℕ) :
    containsAiDigits (camName t i) = true := by
  obtain ⟨c, cs, hdata, hc⟩ := natToString_head_digit i
  have hsplit : (camName t i).data = t.data ++ ('_' :: 'a' :: 'i' :: '_' :: c :: cs) := by
    show (t ++ "_ai_" ++ natToString i).data = _
    rw [String.data_append, String.data_append, hdata,
      show ("_ai_".data) = ['_', 'a', 'i', '_'] from rfl, List.append_assoc]
    rfl
  rw [containsAiDigits, hsplit]
  exact tails_any_aiMatchAt t.data c cs hc

theorem managedObj_created (t : String) (i : ℕ) (z : ℚ) :
    managedObj { name := camName t i, otype := ObjType.camera,
                 z := z, hide_render := false : SceneObj } = true := by
  simp [managedObj, containsAiDigits_camName]

theorem getObj_name {n : String} {s : Scene} {o : SceneObj}
    (h : getObj n s = some o) : o.name = n := by
  have := List.find?_some h
  simpa using this

theorem getObj_setHide (n m : String) (b : Bool) (s : Scene) :
    getObj n (setHide m b s)
      = (getObj n s).map
          (fun o => if o.name == m then { o with hide_render := b } else o) := by
  unfold getObj setHide
  rw [List.find?_map]
  have hp : ((fun o => o.name == n) ∘ fun o =>
      if (o.name == m) = true then { o with hide_render := b } else o)
      = (fun (o : SceneObj) => o.name == n) := by
    funext o
    by_cases h : o.name == m <;> simp [Function.comp, h]
  rw [hp]

theorem getObj_setHide_isSome (n m : String) (b : Bool) (s : Scene) :
    (getObj n (setHide m b s)).isSome = (getObj n s).isSome := by
  rw [getObj_setHide]
  cases getObj n s <;> rfl

theorem getHide_setHide {n : String} (b : Bool) {s : Scene}
    (h : (getObj n s).isSome) : getHide n (setHide n b s) = some b := by
  obtain ⟨o, ho⟩ := Option.isSome_iff_exists.mp h
  have hname : o.name = n := getObj_name ho
  rw [getHide, getObj_setHide, ho]
  simp [hname]

theorem renderLoop_ok_written {ok : ℕ → Bool} {fr : Option (String × ℚ)} :
    ∀ (cams : List SceneObj) (i w : ℕ) (s s' : Scene) (w' : ℕ),
      renderLoop ok fr cams i w s = .ok (s', w') → w' = w + cams.length := by
  intro cams
  induction cams with
  | nil =>
    intro i w s s' w' h
    simp only [renderLoop, Except.ok.injEq, Prod.mk.injEq] at h
    simp [← h.2]
  | cons cam rest ih =>
    intro i w s s' w' h
    simp only [renderLoop] at h
    by_cases hok : ok i
    · rw [if_pos hok] at h
      have := ih (i + 1) (w + 1) _ s' w' h
      simp [this, List.length_cons]
      omega
    · rw [if_neg hok] at h
      exact absurd h (by simp)

theorem renderLoop_all_ok_final_hide {ok : ℕ → Bool} (hok : ∀ j, ok j = true)
    (fn : String) (fz : ℚ) :
    ∀ (cams : List SceneObj) (i w : ℕ) (s : Scene), cams ≠ [] →
      (getObj fn s).isSome →
      ∃ s' w', renderLoop ok (some (fn, fz)) cams i w s = .ok (s', w')
        ∧ getHide fn s' = some false := by
  intro cams
  induction cams with
  | nil => intro i w s hne _; exact absurd rfl hne
  | cons cam rest ih =>
    intro i w s _ hfloor
    set s1 := if cam.z < fz then setHide fn true s else s with hs1
    have hfloor1 : (getObj fn s1).isSome := by
      rw [hs1]
      by_cases hz : cam.z < fz
      · rw [if_pos hz, getObj_setHide_isSome]
        exact hfloor
      · rw [if_neg hz]
        exact hfloor
    have hfloor2 : (getObj fn (setHide fn false s1)).isSome := by
      rw [getObj_setHide_isSome]
      exact hfloor1
    cases rest with
    | nil =>
      refine ⟨setHide fn false s1, w + 1, ?_, getHide_setHide false hfloor1⟩
      simp only [renderLoop, hok i, if_pos]
    | cons cam2 rest2 =>
      obtain ⟨s', w', hrun, hhide⟩ :=
        ih (i + 1) (w + 1) (setHide fn false s1) (by simp) hfloor2
      refine ⟨s', w', ?_, hhide⟩
      simp only [renderLoop, hok i, if_pos]
      exact hrun

theorem render_cameras_ok_spec {s : Scene} {fn : String} {ok : ℕ → Bool}
    {out : RenderResult} (hout : render_cameras s fn ok = .ok out) :
    out.ret = none ∧ out.written = (managedCameras s).length
      ∧ out.printed = (managedCameras s).length := by
  unfold render_cameras at hout
  cases hrun : renderLoop ok
      (if fn = "" then none else (getObj fn s).map (fun f => (f.name, f.z)))
      (managedCameras s) 0 0 s with
  | ok p =>
    obtain ⟨s', w⟩ := p
    rw [hrun] at hout
    cases hout
    refine ⟨rfl, ?_, rfl⟩
    have := renderLoop_ok_written (managedCameras s) 0 0 s s' w hrun
    simpa using this
  | error e =>
    rw [hrun] at hout
    exact absurd hout (by simp)

/-! ## Claims C4, C5: the render batch -/

/-- Scene for the C4 counterexample: a floor at z = 0 (initially visible)
and one managed camera below it at z = −1. -/
def c4Scene : Scene :=
  [{ name := "Floor", otype := ObjType.mesh, z := 0, hide_render := false },
   { name := "cube_ai_0", otype := ObjType.camera, z := -1, hide_render := false }]

/-- C4 (counterexample): the claim says the floor's render visibility is
restored on every exit path of the in-flight camera's iteration, including
when the render raises.  With the floor at z = 0, one managed camera at
z = −1, and a render that raises, the error propagates with
`hide_render = True` still applied (the floor was visible beforehand):
there is no try/finally around the render call. -/
theorem C4_cex_no_restore_on_raise :
    render_cameras c4Scene ("Floor") (fun _ => false)
      = .error (setHide ("Floor") true c4Scene)
    ∧ getHide ("Floor") (setHide ("Floor") true c4Scene) = some true
    ∧ getHide ("Floor") c4Scene = some false :=
  ⟨rfl, rfl, rfl⟩

/-- C4 (amended): the floor-visibility override applied for the in-flight
camera is restored only after a successful render; when the render step
raises with the override applied, the error propagates with the floor still
render-hidden. -/
theorem C4_amended_override_left_applied (cam : SceneObj) (rest : List SceneObj)
    (i w : ℕ) (ok : ℕ → Bool) (fn : String) (fz : ℚ) (s : Scene)
    (hbelow : cam.z < fz) (hfail : ok i = false)
    (hfloor : (getObj fn s).isSome) :
    renderLoop ok (some (fn, fz)) (cam :: rest) i w s = .error (setHide fn true s)
    ∧ getHide fn (setHide fn true s) = some true := by
  refine ⟨?_, getHide_setHide true hfloor⟩
  simp only [renderLoop]
  rw [if_pos hbelow, hfail]
  simp

/-- Witness for `C4_amended_override_left_applied` on `c4Scene`. -/
theorem C4_amended_override_left_applied_witness :
    renderLoop (fun _ => false) (some (("Floor"), 0))
        [{ name := "cube_ai_0", otype := ObjType.camera, z := -1, hide_render := false }]
        0 0 c4Scene
      = .error (setHide ("Floor") true c4Scene)
    ∧ getHide ("Floor") (setHide ("Floor") true c4Scene) = some true :=
  C4_amended_override_left_applied
    { name := "cube_ai_0", otype := ObjType.camera, z := -1, hide_render := false }
    [] 0 0 (fun _ => false) ("Floor") 0 c4Scene (by decide) rfl (by decide)

/-- Scene for the C5 counterexample: a single managed camera. -/
def c5Scene : Scene :=
  [{ name := "cube_ai_7", otype := ObjType.camera, z := 0, hide_render := false }]

/-- C5 (counterexample): both `render_cameras` and `delete_ai_cameras` end in
a `print` and fall off the end of the function, returning Python `None` —
not the count the claim says they return.  On a scene with one managed
camera, deletion removes 1 but returns `None ≠ 1`, and a successful render
batch writes 1 image but returns `None`. -/
theorem C5_cex_returns_none :
    (delete_ai_cameras c5Scene).ret = none
    ∧ (delete_ai_cameras c5Scene).ret ≠ some 1
    ∧ (delete_ai_cameras c5Scene).printed = 1
    ∧ render_cameras c5Scene ("") (fun _ => true)
        = .ok { scene := c5Scene, written := 1, printed := 1, ret := none } :=
  ⟨rfl, by decide, rfl, rfl⟩

/-- C5 (amended): the counts exist but are only printed, not returned: both
functions return `None`.  `delete_ai_cameras` prints the number of managed
cameras removed; a `render_cameras` batch that completes writes and prints
one image per discovered camera, and returns `None`. -/
theorem C5_amended_counts_not_returned (s : Scene) (fn : String) (ok : ℕ → Bool) :
    (delete_ai_cameras s).ret = none
    ∧ (delete_ai_cameras s).printed = (managedCameras s).length
    ∧ (∀ out, render_cameras s fn ok = .ok out →
        out.ret = none ∧ out.written = (managedCameras s).length
          ∧ out.printed = (managedCameras s).length) :=
  ⟨rfl, rfl, fun _ hout => render_cameras_ok_spec hout⟩

/-- Witness for `C5_amended_counts_not_returned` on `c5Scene`. -/
theorem C5_amended_counts_not_returned_witness :
    (delete_ai_cameras c5Scene).ret = none
    ∧ (delete_ai_cameras c5Scene).printed = (managedCameras c5Scene).length
    ∧ (∀ out, render_cameras c5Scene ("") (fun _ => true) = .ok out →
        out.ret = none ∧ out.written = (managedCameras c5Scene).length
          ∧ out.printed = (managedCameras c5Scene).length) :=
  C5_amended_counts_not_returned c5Scene ("") (fun _ => true)

/-! ## Claim C6: which objects count as managed -/

/-- Scene for the C6 counterexample: a camera whose name contains
`_ai_1` in the middle but does not end in `_ai_` followed by digits. -/
def c6Scene : Scene :=
  [{ name := "cam_ai_1x", otype := ObjType.camera, z := 0, hide_render := false }]

/-- C6 (counterexample): the claim says an object is managed exactly when
its name ends with `_ai_` followed by digits, and that non-suffix matches
are never managed.  But `re.search` matches anywhere: the camera
"cam_ai_1x" does not end in `_ai_<digits>`, yet deletion removes it. -/
theorem C6_cex_substring_not_suffix :
    endsWithAiDigits ("cam_ai_1x") = false
    ∧ (delete_ai_cameras c6Scene).printed = 1
    ∧ (delete_ai_cameras c6Scene).scene = []
    ∧ managedCameras c6Scene = c6Scene :=
  ⟨by decide, rfl, rfl, rfl⟩

/-- C6 (amended): both render discovery and deletion treat an object as a
managed camera exactly when it is a camera whose name *contains* `_ai_`
followed by at least one digit, anywhere in the name (`re.search`, not
anchored to the end).  A camera named "foo_ai_bar" (no digit after `_ai_`)
is indeed never matched. -/
theorem C6_amended_substring_semantics (s : Scene) (o : SceneObj) :
    (o ∈ managedCameras s
      ↔ (o ∈ s ∧ o.otype = ObjType.camera ∧ containsAiDigits o.name = true))
    ∧ (delete_ai_cameras s).printed = (managedCameras s).length
    ∧ (delete_ai_cameras s).scene = s.filter (fun o => !(managedObj o))
    ∧ (∀ fn ok out, render_cameras s fn ok = .ok out →
        out.printed = (managedCameras s).length)
    ∧ containsAiDigits ("foo_ai_bar") = false := by
  refine ⟨?_, rfl, rfl, ?_, by decide⟩
  · rw [managedCameras, List.mem_filter, managedObj]
    simp [Bool.and_eq_true]
  · intro fn ok out hout
    exact (render_cameras_ok_spec hout).2.2

/-- Witness for `C6_amended_substring_semantics` on `c6Scene`. -/
theorem C6_amended_substring_semantics_witness :
    (({ name := "cam_ai_1x", otype := ObjType.camera, z := 0,
        hide_render := false : SceneObj }) ∈ managedCameras c6Scene
      ↔ (({ name := "cam_ai_1x", otype := ObjType.camera, z := 0,
            hide_render := false : SceneObj }) ∈ c6Scene
          ∧ ObjType.camera = ObjType.camera
          ∧ containsAiDigits ("cam_ai_1x") = true))
    ∧ (delete_ai_cameras c6Scene).printed = (managedCameras c6Scene).length
    ∧ (delete_ai_cameras c6Scene).scene = c6Scene.filter (fun o => !(managedObj o))
    ∧ (∀ fn ok out, render_cameras c6Scene fn ok = .ok out →
        out.printed = (managedCameras c6Scene).length)
    ∧ containsAiDigits ("foo_ai_bar") = false :=
  C6_amended_substring_semantics c6Scene
    { name := "cam_ai_1x", otype := ObjType.camera, z := 0, hide_render := false }

/-! ## Claim C9: create / delete round trip -/

/-- C9: with a resolvable target and a baseline scene containing no managed
camera, `create_cameras` over N points adds exactly N cameras (named
`<target>_ai_0 .. _ai_<N-1>`); an immediate `delete_ai_cameras` removes
exactly those N cameras, restoring the baseline scene; a second call
removes 0, changes nothing and does not error. -/
theorem C9_roundtrip (s : Scene) (tname : String) (points : List (ℚ × ℚ × ℚ))
    (radii : ℕ → ℚ) (htgt : (getObj tname s).isSome)
    (hclean : ∀ o ∈ s, managedObj o = false) :
    ∃ s1, create_cameras s tname points radii = some (s1, points.length)
      ∧ (delete_ai_cameras s1).printed = points.length
      ∧ (delete_ai_cameras s1).scene = s
      ∧ (delete_ai_cameras (delete_ai_cameras s1).scene).printed = 0
      ∧ (delete_ai_cameras (delete_ai_cameras s1).scene).ret = none
      ∧ (delete_ai_cameras (delete_ai_cameras s1).scene).scene = s := by
  obtain ⟨target, htarget⟩ := Option.isSome_iff_exists.mp htgt
  set cams := points.enum.map (fun ip =>
    { name := camName target.name ip.1, otype := ObjType.camera,
      z := target.z + ip.2.2.2 * radii ip.1, hide_render := false : SceneObj })
    with hcams
  have hcamlen : cams.length = points.length := by
    rw [hcams, List.length_map, List.enum_length]
  have hallmanaged : ∀ c ∈ cams, managedObj c = true := by
    intro c hc
    rw [hcams] at hc
    obtain ⟨ip, _, rfl⟩ := List.mem_map.mp hc
    exact managedObj_created target.name ip.1 _
  have hsnil : s.filter managedObj = [] :=
    List.filter_eq_nil_iff.mpr (fun o ho => by simp [hclean o ho])
  have hsself : s.filter (fun o => !(managedObj o)) = s :=
    List.filter_eq_self.mpr (fun o ho => by simp [hclean o ho])
  have hfil1 : (s ++ cams).filter managedObj = cams := by
    rw [List.filter_append, hsnil, List.nil_append]
    exact List.filter_eq_self.mpr hallmanaged
  have hfil2 : (s ++ cams).filter (fun o => !(managedObj o)) = s := by
    rw [List.filter_append, hsself]
    have : cams.filter (fun o => !(managedObj o)) = [] :=
      List.filter_eq_nil_iff.mpr (fun c hc => by simp [hallmanaged c hc])
    rw [this, List.append_nil]
  refine ⟨s ++ cams, ?_, ?_, ?_, ?_, rfl, ?_⟩
  · simp only [create_cameras, htarget, ← hcams, hcamlen]
  · show (managedCameras (s ++ cams)).length = points.length
    rw [managedCameras, hfil1, hcamlen]
  · exact hfil2
  · show (managedCameras (delete_ai_cameras (s ++ cams)).scene).length = 0
    show (managedCameras ((s ++ cams).filter (fun o => !(managedObj o)))).length = 0
    rw [hfil2, managedCameras, hsnil, List.length_nil]
  · show ((delete_ai_cameras (s ++ cams)).scene).filter (fun o => !(managedObj o)) = s
    show ((s ++ cams).filter (fun o => !(managedObj o))).filter
      (fun o => !(managedObj o)) = s
    rw [hfil2, hsself]

/-- Baseline scene for the C9 witness: one mesh target, no cameras. -/
def c9Scene : Scene :=
  [{ name := "Cube", otype := ObjType.mesh, z := 0, hide_render := false }]

/-- Witness for `C9_roundtrip`: one point around target "Cube". -/
theorem C9_roundtrip_witness :
    ∃ s1, create_cameras c9Scene ("Cube") [((0 : ℚ), (0 : ℚ), (1 : ℚ))]
        (fun _ => 1) = some (s1, [((0 : ℚ), (0 : ℚ), (1 : ℚ))].length)
      ∧ (delete_ai_cameras s1).printed = [((0 : ℚ), (0 : ℚ), (1 : ℚ))].length
      ∧ (delete_ai_cameras s1).scene = c9Scene
      ∧ (delete_ai_cameras (delete_ai_cameras s1).scene).printed = 0
      ∧ (delete_ai_cameras (delete_ai_cameras s1).scene).ret = none
      ∧ (delete_ai_cameras (delete_ai_cameras s1).scene).scene = c9Scene :=
  C9_roundtrip c9Scene ("Cube") [((0 : ℚ), (0 : ℚ), (1 : ℚ))] (fun _ => 1)
    (by decide) (by decide)

/-! ## Claim C10: the floor is forced visible after a completed batch -/

/-- C10: when the floor resolves, at least one managed camera exists and
every render succeeds, the batch completes and leaves the floor's
`hide_render` flag False — regardless of the floor's initial flag and of
whether any camera was below the floor (the restore at line 389 runs for
every camera, not only overridden ones). -/
theorem C10_floor_forced_visible (s : Scene) (fn : String) (ok : ℕ → Bool)
    (hok : ∀ j, ok j = true) (hfn : ¬(fn = ""))
    (hfloor : (getObj fn s).isSome) (hcams : managedCameras s ≠ []) :
    ∃ out, render_cameras s fn ok = .ok out ∧ getHide fn out.scene = some false := by
  obtain ⟨f, hf⟩ := Option.isSome_iff_exists.mp hfloor
  have hname : f.name = fn := getObj_name hf
  obtain ⟨s', w', hrun, hhide⟩ :=
    renderLoop_all_ok_final_hide hok fn f.z (managedCameras s) 0 0 s hcams hfloor
  refine ⟨{ scene := s', written := w',
            printed := (managedCameras s).length, ret := none }, ?_, hhide⟩
  have hfr : (if fn = "" then none
      else (getObj fn s).map (fun f => (f.name, f.z))) = some (fn, f.z) := by
    rw [if_neg hfn, hf, Option.map_some', hname]
  rw [render_cameras, hfr, hrun]

/-- Scene for the C10 witness: the floor starts hidden (`hide_render =
True`) and the single managed camera is above the floor; after the batch
the floor is nevertheless left visible. -/
def c10Scene : Scene :=
  [{ name := "Floor", otype := ObjType.mesh, z := 0, hide_render := true },
   { name := "cube_ai_0", otype := ObjType.camera, z := 5, hide_render := false }]

/-- Witness for `C10_floor_forced_visible` on `c10Scene`. -/
theorem C10_floor_forced_visible_witness :
    ∃ out, render_cameras c10Scene ("Floor") (fun _ => true) = .ok out
      ∧ getHide ("Floor") out.scene = some false :=
  C10_floor_forced_visible c10Scene ("Floor") (fun _ => true)
    (fun _ => rfl) (by decide) (by decide) (by decide)

/-! ## Claim C7: the overlap filter (operators.py lines 199–216) -/

/-- `(Vector(point) - Vector(other)).length`: Euclidean distance of the
overlap test (line 214). -/
noncomputable def vlen (p q : Point) : ℝ :=
  Real.sqrt ((p.1 - q.1) ^ 2 + (p.2.1 - q.2.1) ^ 2 + (p.2.2 - q.2.2) ^ 2)

open Classical in
/-- One iteration of `remove_overlapping_cameras` (lines 211–215): keep the
point iff its distance to every previously kept point is ≥ threshold. -/
noncomputable def overlapStep (threshold : ℝ) (filtered_points : List Point)
    (point : Point) : List Point :=
  if ∀ other ∈ filtered_points, threshold ≤ vlen point other
  then filtered_points ++ [point] else filtered_points

/-- `remove_overlapping_cameras` (lines 199–216): greedy left-to-right
walk starting from the empty kept list. -/
noncomputable def remove_overlapping_cameras (points : List Point) (threshold : ℝ) :
    List Point :=
  points.foldl (overlapStep threshold) []

theorem vlen_nonneg (p q : Point) : 0 ≤ vlen p q := Real.sqrt_nonneg _

theorem vlen_comm (p q : Point) : vlen p q = vlen q p := by
  rw [vlen, vlen]
  congr 1
  ring

theorem overlap_foldl_append (t : ℝ) :
    ∀ (points acc : List Point),
      ∃ sel, points.foldl (overlapStep t) acc = acc ++ sel ∧ sel.Sublist points := by
  intro points
  induction points with
  | nil =>
    intro acc
    exact ⟨[], by simp, List.Sublist.refl []⟩
  | cons p rest ih =>
    intro acc
    rw [List.foldl_cons]
    by_cases hc : ∀ other ∈ acc, t ≤ vlen p other
    · obtain ⟨sel, hsel, hsub⟩ := ih (acc ++ [p])
      refine ⟨p :: sel, ?_, hsub.cons₂ p⟩
      rw [overlapStep, if_pos hc, hsel, List.append_assoc]
      rfl
    · obtain ⟨sel, hsel, hsub⟩ := ih acc
      refine ⟨sel, ?_, hsub.cons p⟩
      rw [overlapStep, if_neg hc, hsel]

theorem overlap_foldl_pairwise (t : ℝ) :
    ∀ (points acc : List Point),
      acc.Pairwise (fun p q => t ≤ vlen p q) →
      (points.foldl (overlapStep t) acc).Pairwise (fun p q => t ≤ vlen p q) := by
  intro points
  induction points with
  | nil => intro acc h; exact h
  | cons p rest ih =>
    intro acc h
    rw [List.foldl_cons]
    by_cases hc : ∀ other ∈ acc, t ≤ vlen p other
    · rw [overlapStep, if_pos hc]
      refine ih _ (List.pairwise_append.mpr ⟨h, List.pairwise_singleton _ _, ?_⟩)
      intro a ha b hb
      rw [List.mem_singleton] at hb
      subst hb
      rw [vlen_comm]
      exact hc a ha
    · rw [overlapStep, if_neg hc]
      exact ih _ h

theorem overlap_foldl_zero :
    ∀ (points acc : List Point), points.foldl (overlapStep 0) acc = acc ++ points := by
  intro points
  induction points with
  | nil => intro acc; simp
  | cons p rest ih =>
    intro acc
    rw [List.foldl_cons, overlapStep,
      if_pos (fun other _ => vlen_nonneg p other), ih, List.append_assoc]
    rfl

/-- C7: the overlap filter returns an order-preserving subsequence of its
input; every pair of kept points is at Euclidean distance ≥ threshold; and
with threshold 0 the output equals the input (the test `length ≥ 0` always
passes). -/
theorem C7_overlap_filter (points : List Point) (threshold : ℝ) :
    (remove_overlapping_cameras points threshold).Sublist points
    ∧ (remove_overlapping_cameras points threshold).Pairwise
        (fun p q => threshold ≤ vlen p q)
    ∧ remove_overlapping_cameras points 0 = points := by
  refine ⟨?_, ?_, ?_⟩
  · obtain ⟨sel, hsel, hsub⟩ := overlap_foldl_append threshold points []
    rw [remove_overlapping_cameras, hsel]
    simpa using hsub
  · exact overlap_foldl_pairwise threshold points [] List.Pairwise.nil
  · rw [remove_overlapping_cameras, overlap_foldl_zero points []]
    rfl

/-! ## Claim C8: the equator-dense vertical angles -/

/-- C8 (code bug): for V = 4 with half_sphere, the ring v = 3 has
t = 7/8 and vertical angle `asin(7/8) * (π/2) ≈ 1.674 > π/2`, contradicting
the claim and the code's own comment "Scale to [0, π/2] for half sphere":
`asin` already maps [0, 1] onto [0, π/2], so the extra factor π/2 pushes
angles past the claimed bound as soon as t > sin 1. -/
theorem C8_half_sphere_angle_exceeds_bound :
    ∃ a : ℝ, equatorTheta 4 true 3 = some a ∧ Real.pi / 2 < a := by
  have harg : (((3 : ℕ) : ℚ) + 1 / 2) / ((4 : ℕ) : ℚ) = 7 / 8 := by norm_num
  refine ⟨Real.arcsin ((7 : ℝ) / 8) * (Real.pi / 2), ?_, ?_⟩
  · rw [equatorTheta, if_pos rfl, harg, pyasinQ, if_pos (by norm_num)]
    norm_num
  · have hs3 : Real.sqrt 3 / 2 ≤ (7 : ℝ) / 8 := by
      nlinarith [Real.sq_sqrt (show (0 : ℝ) ≤ 3 by norm_num), Real.sqrt_nonneg 3]
    have hval : Real.arcsin (Real.sqrt 3 / 2) = Real.pi / 3 := by
      rw [← Real.sin_pi_div_three]
      exact Real.arcsin_sin (by linarith [Real.pi_pos]) (by linarith [Real.pi_pos])
    have hmono : Real.arcsin (Real.sqrt 3 / 2) ≤ Real.arcsin ((7 : ℝ) / 8) :=
      Real.monotone_arcsin hs3
    have h1 : (1 : ℝ) < Real.arcsin ((7 : ℝ) / 8) := by
      have := Real.pi_gt_three
      linarith [hval ▸ hmono]
    have hpi2 : (0 : ℝ) < Real.pi / 2 := by positivity
    calc Real.pi / 2 = 1 * (Real.pi / 2) := (one_mul _).symm
      _ < Real.arcsin ((7 : ℝ) / 8) * (Real.pi / 2) :=
        mul_lt_mul_of_pos_right h1 hpi2

end Anglecraft
